import Mathlib

/-!
Verification of the sigmoid focal loss implementation in
`imba_explain/losses/focal.py` (function `sigmoid_focal_loss` and module
wrapper `FocalLoss`).

Tensors are shallowly embedded as a shape (a list of dimension sizes)
together with a flat row-major data list of real numbers.  Elementwise
tensor operations become `List.zipWith` of the corresponding scalar maps;
float arithmetic is modelled by real arithmetic.  Errors (the `assert`
statements of the Python code and the error taxonomy of the design
document) are modelled with `Except`.

The helper `weight_reduce_loss` lives in `imba_explain/losses/utils.py`,
which is not part of the excerpt; it is modelled from the specification
(see the doc comments below).  Everything else follows `focal.py` line by
line.
-/

open Real Filter

/-- A dense numeric array: a shape and a flat row-major data list. -/
@[ext]
structure Tensor where
  shape : List Nat
  data : List ℝ

/-- Rank of a tensor, as in `Tensor.dim()` in PyTorch. -/
def Tensor.dim (t : Tensor) : Nat := t.shape.length

/-- The error taxonomy of the design document: `ShapeMismatch` for the
`pred.shape == target.shape` assertion, `InvalidArgument` for a bad
reduction mode, a bad `reduction_override`, or a sample weight that is
not 1-D. -/
inductive FocalError where
  | shapeMismatch
  | invalidArgument
deriving DecidableEq

/-- The logistic sigmoid `1 / (1 + e^(-x))`, the semantics of
`pred.sigmoid()`. -/
noncomputable def sigmoid (x : ℝ) : ℝ := 1 / (1 + Real.exp (-x))

/-- The per-element semantics of
`F.binary_cross_entropy_with_logits(pred, target, reduction='none')`:
PyTorch's numerically stable log-sum-exp formulation
`max(x, 0) - x * t + log(1 + exp(-|x|))`. -/
noncomputable def binary_cross_entropy_with_logits (x t : ℝ) : ℝ :=
  max x 0 - x * t + Real.log (1 + Real.exp (-|x|))

/-- The per-element focal loss of `sigmoid_focal_loss` before weighting
and reduction, following the source lines
`pred_sigmoid = pred.sigmoid()`,
`pt = (1 - pred_sigmoid) * target + pred_sigmoid * (1 - target)`,
`focal_weight = (alpha * target + (1 - alpha) * (1 - target)) * pt.pow(gamma)`,
`loss = F.binary_cross_entropy_with_logits(pred, target, reduction='none') * focal_weight`.
`alpha` is modelled in its scalar (float) form.  `pt.pow(gamma)` with a
float exponent is modelled by `Real.rpow`. -/
noncomputable def focalElem (gamma alpha : ℝ) (x t : ℝ) : ℝ :=
  let pred_sigmoid := sigmoid x
  let pt := (1 - pred_sigmoid) * t + pred_sigmoid * (1 - t)
  let focal_weight := (alpha * t + (1 - alpha) * (1 - t)) * pt ^ gamma
  binary_cross_entropy_with_logits x t * focal_weight

/-- The unreduced loss tensor of `sigmoid_focal_loss`: `focalElem` applied
elementwise to `pred` and `target` (which have passed the shape check). -/
noncomputable def perElemLoss (gamma alpha : ℝ) (pred target : Tensor) : Tensor :=
  ⟨pred.shape, List.zipWith (focalElem gamma alpha) pred.data target.data⟩

/-- Multiplication of the loss tensor by the 1-D sample weight, after the
source's `weight = weight.reshape(-1, 1)` when `pred.dim() > 1`: sample
`i`'s block of `loss.shape.tail.prod` consecutive elements is scaled by
`w[i]`.  For a rank-1 loss the block size is `1`, which agrees with the
unreshaped elementwise product the source uses in that case. -/
def applyWeight (loss : Tensor) (w : List ℝ) : Tensor :=
  let bs := loss.shape.tail.prod
  ⟨loss.shape, loss.data.mapIdx fun i x => x * w.getD (i / bs) 0⟩

/-- Modelled from the spec: the reduction step of `weight_reduce_loss`
(defined in `imba_explain/losses/utils.py`, which is not in the excerpt).
`none` returns the per-element array unchanged, `sum` the scalar sum,
`mean` the arithmetic mean over all elements; any other mode is an
`InvalidArgument` error.  Scalars are 0-dimensional tensors. -/
noncomputable def reduce_loss (loss : Tensor) (reduction : String) :
    Except FocalError Tensor :=
  if reduction = "none" then .ok loss
  else if reduction = "mean" then .ok ⟨[], [loss.data.sum / loss.data.length]⟩
  else if reduction = "sum" then .ok ⟨[], [loss.data.sum]⟩
  else .error .invalidArgument

/-- Modelled from the spec: `weight_reduce_loss` from
`imba_explain/losses/utils.py`, which is not in the excerpt.  The loss is
first multiplied elementwise by the (already reshaped) sample weight if
one is given.  With `avg_factor = None` the loss is reduced by
`reduce_loss`; otherwise `mean` divides the sum of the elements by
`avg_factor`, `none` ignores `avg_factor` and returns the per-element
array, and any other mode is an `InvalidArgument` error. -/
noncomputable def weight_reduce_loss (loss : Tensor) (weight : Option (List ℝ))
    (reduction : String) (avg_factor : Option ℝ) : Except FocalError Tensor :=
  let l := match weight with
    | none => loss
    | some w => applyWeight loss w
  match avg_factor with
  | none => reduce_loss l reduction
  | some a =>
    if reduction = "mean" then .ok ⟨[], [l.data.sum / a]⟩
    else if reduction = "none" then .ok l
    else .error .invalidArgument

/-- Function `sigmoid_focal_loss` from `imba_explain/losses/focal.py`.  The shape
assertion becomes a `ShapeMismatch` error; the `weight.dim() == 1`
assertion becomes an `InvalidArgument` error (the weight's reshape to
`(N, 1)` for rank-`> 1` predictions is realised inside `applyWeight`; the
cast `weight.float()` is the identity on real data). -/
noncomputable def sigmoid_focal_loss (pred target : Tensor)
    (weight : Option Tensor) (gamma alpha : ℝ)
    (reduction : String) (avg_factor : Option ℝ) :
    Except FocalError Tensor :=
  if pred.shape = target.shape then
    let loss := perElemLoss gamma alpha pred target
    match weight with
    | none => weight_reduce_loss loss none reduction avg_factor
    | some w =>
      if w.dim = 1 then weight_reduce_loss loss (some w.data) reduction avg_factor
      else .error .invalidArgument
  else .error .shapeMismatch

/-- The configuration held by the `FocalLoss` module: `gamma`, `alpha`,
`reduction` and `loss_weight`. -/
structure FocalLoss where
  gamma : ℝ
  alpha : ℝ
  reduction : String
  loss_weight : ℝ

/-- Constructor `FocalLoss.__init__`: stores the four arguments unvalidated.  The
source's default values are `gamma=2.0, alpha=0.25, reduction='mean',
loss_weight=1.0`. -/
def FocalLoss.init (gamma alpha : ℝ) (reduction : String) (loss_weight : ℝ) :
    FocalLoss :=
  ⟨gamma, alpha, reduction, loss_weight⟩

/-- Scalar multiplication of a tensor, the semantics of
`self.loss_weight * sigmoid_focal_loss(...)`. -/
def scaleTensor (c : ℝ) (t : Tensor) : Tensor := ⟨t.shape, t.data.map (c * ·)⟩

/-- Method `FocalLoss.forward`: asserts
`reduction_override in (None, 'none', 'mean', 'sum')` (an
`InvalidArgument` error otherwise), lets a non-`None` override take
precedence over the configured reduction, delegates to
`sigmoid_focal_loss` and multiplies the result by `loss_weight`. -/
noncomputable def FocalLoss.forward (self : FocalLoss) (pred target : Tensor)
    (weight : Option Tensor) (avg_factor : Option ℝ)
    (reduction_override : Option String) : Except FocalError Tensor :=
  if reduction_override = none ∨ reduction_override = some "none" ∨
      reduction_override = some "mean" ∨ reduction_override = some "sum" then
    let reduction := reduction_override.getD self.reduction
    (sigmoid_focal_loss pred target weight self.gamma self.alpha reduction
      avg_factor).map (scaleTensor self.loss_weight)
  else .error .invalidArgument

/-- The per-element focal loss exactly as the specification phrases it:
`BCE_with_logits(pred, target) * (alpha*target + (1-alpha)*(1-target)) * pt^gamma`
with `p = sigmoid(pred)` and `pt = (1-p)*target + p*(1-target)`. -/
noncomputable def specFocalElem (gamma alpha : ℝ) (x t : ℝ) : ℝ :=
  binary_cross_entropy_with_logits x t * (alpha * t + (1 - alpha) * (1 - t)) *
    ((1 - sigmoid x) * t + sigmoid x * (1 - t)) ^ gamma

/-- The weighted per-element loss tensor of `sigmoid_focal_loss`, i.e. the
array that is reduced in the final step: the elementwise focal loss, times
the broadcast sample weight when one is given. -/
noncomputable def weightedLoss (gamma alpha : ℝ) (pred target : Tensor)
    (weight : Option Tensor) : Tensor :=
  match weight with
  | none => perElemLoss gamma alpha pred target
  | some w => applyWeight (perElemLoss gamma alpha pred target) w.data

/- Helper lemmas about the embedding. -/

theorem perElemLoss_shape (gamma alpha : ℝ) (pred target : Tensor) :
    (perElemLoss gamma alpha pred target).shape = pred.shape := rfl

theorem perElemLoss_data_length (gamma alpha : ℝ) (pred target : Tensor)
    (h : pred.data.length = target.data.length) :
    (perElemLoss gamma alpha pred target).data.length = pred.data.length := by
  simp [perElemLoss, List.length_zipWith, h]

theorem applyWeight_shape (l : Tensor) (w : List ℝ) :
    (applyWeight l w).shape = l.shape := rfl

theorem applyWeight_data_length (l : Tensor) (w : List ℝ) :
    (applyWeight l w).data.length = l.data.length := by
  simp [applyWeight]

/-- Unfolding `sigmoid_focal_loss` when the shape check passes and no
sample weight is given. -/
theorem sigmoid_focal_loss_none (pred target : Tensor) (gamma alpha : ℝ)
    (reduction : String) (avg_factor : Option ℝ)
    (hsh : pred.shape = target.shape) :
    sigmoid_focal_loss pred target none gamma alpha reduction avg_factor =
      weight_reduce_loss (perElemLoss gamma alpha pred target) none reduction
        avg_factor := by
  simp [sigmoid_focal_loss, hsh]

/-- Unfolding `sigmoid_focal_loss` when the shape check passes and a 1-D
sample weight is given. -/
theorem sigmoid_focal_loss_some (pred target w : Tensor) (gamma alpha : ℝ)
    (reduction : String) (avg_factor : Option ℝ)
    (hsh : pred.shape = target.shape) (hd : w.dim = 1) :
    sigmoid_focal_loss pred target (some w) gamma alpha reduction avg_factor =
      weight_reduce_loss (perElemLoss gamma alpha pred target) (some w.data)
        reduction avg_factor := by
  simp [sigmoid_focal_loss, hsh, hd]

/-- Passing a weight to `weight_reduce_loss` agrees with calling it
without one on the pre-multiplied loss. -/
theorem weight_reduce_loss_some (l : Tensor) (w : List ℝ) (reduction : String)
    (avg_factor : Option ℝ) :
    weight_reduce_loss l (some w) reduction avg_factor =
      weight_reduce_loss (applyWeight l w) none reduction avg_factor := rfl

/-- C2: for every `pred` and `target` whose shapes differ,
`sigmoid_focal_loss` fails with a `ShapeMismatch` error (and hence never
returns a value), whatever the other arguments are. -/
theorem C2_shape_mismatch_error (pred target : Tensor) (weight : Option Tensor)
    (gamma alpha : ℝ) (reduction : String) (avg_factor : Option ℝ)
    (h : pred.shape ≠ target.shape) :
    sigmoid_focal_loss pred target weight gamma alpha reduction avg_factor =
      .error .shapeMismatch := by
  simp [sigmoid_focal_loss, h]

/-- Witness for C2 at a concrete shape mismatch: shape `[2]` against
shape `[3]`. -/
theorem C2_shape_mismatch_error_witness :
    sigmoid_focal_loss ⟨[2], [1, 2]⟩ ⟨[3], [1, 2, 3]⟩ none 2 (1 / 4) "mean"
      none = .error .shapeMismatch :=
  C2_shape_mismatch_error _ _ _ _ _ _ _ (by decide)

/-- C5: with `gamma = 0` and `alpha = 0.5` the per-element focal loss is
exactly half of the binary cross-entropy-with-logits loss, for every
logit `x` and every target value `t`. -/
theorem C5_gamma_zero_alpha_half (x t : ℝ) :
    focalElem 0 (1 / 2) x t =
      (1 / 2) * binary_cross_entropy_with_logits x t := by
  simp only [focalElem, Real.rpow_zero]
  ring

/-- C1: for equal-shaped inputs and any in-range index `i`, the
per-element loss returned by `sigmoid_focal_loss` with `reduction='none'`
and no weighting is exactly the specification's formula
`BCE(x, t) * (alpha*t + (1-alpha)*(1-t)) * pt^gamma` with
`p = sigmoid x` and `pt = (1-p)*t + p*(1-t)`. -/
theorem C1_per_element_formula (pred target : Tensor) (gamma alpha : ℝ)
    (i : ℕ) (hsh : pred.shape = target.shape)
    (hip : i < pred.data.length) (hit : i < target.data.length) :
    ∃ out, sigmoid_focal_loss pred target none gamma alpha "none" none =
        .ok out ∧
      out.data.getD i 0 =
        specFocalElem gamma alpha (pred.data.getD i 0)
          (target.data.getD i 0) := by
  refine ⟨perElemLoss gamma alpha pred target, ?_, ?_⟩
  · rw [sigmoid_focal_loss_none _ _ _ _ _ _ hsh]
    simp [weight_reduce_loss, reduce_loss]
  · have hz : i <
        (List.zipWith (focalElem gamma alpha) pred.data target.data).length := by
      simp [List.length_zipWith]
      omega
    show (List.zipWith (focalElem gamma alpha) pred.data target.data).getD i 0 = _
    rw [List.getD_eq_getElem _ _ hz, List.getD_eq_getElem _ _ hip,
      List.getD_eq_getElem _ _ hit, List.getElem_zipWith]
    simp only [focalElem, specFocalElem]
    ring

/-- Witness for C1 at `pred = [[10]]`, `target = [[1]]`, `gamma = 2`,
`alpha = 1/4`, index `0`. -/
theorem C1_per_element_formula_witness :
    ∃ out, sigmoid_focal_loss ⟨[1, 1], [10]⟩ ⟨[1, 1], [1]⟩ none 2 (1 / 4)
        "none" none = .ok out ∧
      out.data.getD 0 0 = specFocalElem 2 (1 / 4) 10 1 :=
  C1_per_element_formula ⟨[1, 1], [10]⟩ ⟨[1, 1], [1]⟩ 2 (1 / 4) 0 rfl
    (by decide) (by decide)

/-- C3: with `reduction='none'` (and any `avg_factor`), for equal-shaped
inputs and a valid (1-D, if given) sample weight, `sigmoid_focal_loss`
returns an array of exactly the input shape, with one entry per input
element. -/
theorem C3_reduction_none_keeps_shape (pred target : Tensor)
    (weight : Option Tensor) (gamma alpha : ℝ) (avg_factor : Option ℝ)
    (hsh : pred.shape = target.shape)
    (hlen : pred.data.length = target.data.length)
    (hw : ∀ w, weight = some w → w.dim = 1) :
    ∃ out, sigmoid_focal_loss pred target weight gamma alpha "none"
        avg_factor = .ok out ∧
      out.shape = pred.shape ∧ out.data.length = pred.data.length := by
  cases weight with
  | none =>
    refine ⟨perElemLoss gamma alpha pred target, ?_, rfl,
      perElemLoss_data_length _ _ _ _ hlen⟩
    rw [sigmoid_focal_loss_none _ _ _ _ _ _ hsh]
    cases avg_factor <;> simp [weight_reduce_loss, reduce_loss]
  | some w =>
    refine ⟨applyWeight (perElemLoss gamma alpha pred target) w.data, ?_, rfl, ?_⟩
    · rw [sigmoid_focal_loss_some _ _ _ _ _ _ _ hsh (hw w rfl),
        weight_reduce_loss_some]
      cases avg_factor <;> simp [weight_reduce_loss, reduce_loss]
    · rw [applyWeight_data_length, perElemLoss_data_length _ _ _ _ hlen]

/-- Witness for C3 at a concrete `(2, 2)` input with a sample weight. -/
theorem C3_reduction_none_keeps_shape_witness :
    ∃ out, sigmoid_focal_loss ⟨[2, 2], [1, 2, 3, 4]⟩ ⟨[2, 2], [1, 0, 0, 1]⟩
        (some ⟨[2], [1, 0]⟩) 2 (1 / 4) "none" none = .ok out ∧
      out.shape = [2, 2] ∧ out.data.length = 4 :=
  C3_reduction_none_keeps_shape ⟨[2, 2], [1, 2, 3, 4]⟩ ⟨[2, 2], [1, 0, 0, 1]⟩
    (some ⟨[2], [1, 0]⟩) 2 (1 / 4) none rfl (by decide)
    (fun w hw => by cases hw; rfl)

/-- C4: with `reduction='mean'`, for equal-shaped inputs and a valid
sample weight, a non-`None` `avg_factor = a` makes the result the scalar
`sum / a` (sum of the weighted per-element losses), not `sum / count`,
while `avg_factor = None` gives the arithmetic mean `sum / count`. -/
theorem C4_mean_avg_factor (pred target : Tensor) (weight : Option Tensor)
    (gamma alpha : ℝ) (a : ℝ)
    (hsh : pred.shape = target.shape)
    (hw : ∀ w, weight = some w → w.dim = 1) :
    sigmoid_focal_loss pred target weight gamma alpha "mean" (some a) =
      .ok ⟨[], [(weightedLoss gamma alpha pred target weight).data.sum / a]⟩ ∧
    sigmoid_focal_loss pred target weight gamma alpha "mean" none =
      .ok ⟨[], [(weightedLoss gamma alpha pred target weight).data.sum /
        (weightedLoss gamma alpha pred target weight).data.length]⟩ := by
  cases weight with
  | none =>
    rw [sigmoid_focal_loss_none _ _ _ _ _ _ hsh,
      sigmoid_focal_loss_none _ _ _ _ _ _ hsh]
    simp [weight_reduce_loss, reduce_loss, weightedLoss]
  | some w =>
    rw [sigmoid_focal_loss_some _ _ _ _ _ _ _ hsh (hw w rfl),
      sigmoid_focal_loss_some _ _ _ _ _ _ _ hsh (hw w rfl)]
    simp [weight_reduce_loss, reduce_loss, weightedLoss]

/-- Witness for C4 at a concrete `(1, 2)` input with `avg_factor = 8`. -/
theorem C4_mean_avg_factor_witness :
    sigmoid_focal_loss ⟨[1, 2], [1, 2]⟩ ⟨[1, 2], [1, 0]⟩ none 2 (1 / 4)
        "mean" (some 8) =
      .ok ⟨[], [(weightedLoss 2 (1 / 4) ⟨[1, 2], [1, 2]⟩ ⟨[1, 2], [1, 0]⟩
        none).data.sum / 8]⟩ ∧
    sigmoid_focal_loss ⟨[1, 2], [1, 2]⟩ ⟨[1, 2], [1, 0]⟩ none 2 (1 / 4)
        "mean" none =
      .ok ⟨[], [(weightedLoss 2 (1 / 4) ⟨[1, 2], [1, 2]⟩ ⟨[1, 2], [1, 0]⟩
        none).data.sum /
        (weightedLoss 2 (1 / 4) ⟨[1, 2], [1, 2]⟩ ⟨[1, 2], [1, 0]⟩
          none).data.length]⟩ :=
  C4_mean_avg_factor ⟨[1, 2], [1, 2]⟩ ⟨[1, 2], [1, 0]⟩ none 2 (1 / 4) 8 rfl
    (fun w hw => by cases hw)

/-- C9: with a reduction mode outside `{none, mean, sum}`,
`sigmoid_focal_loss` never returns a value, and — whenever its earlier
checks pass (equal shapes, 1-D weight if given) — it fails with an
`InvalidArgument` error. -/
theorem C9_invalid_reduction (pred target : Tensor) (weight : Option Tensor)
    (gamma alpha : ℝ) (reduction : String) (avg_factor : Option ℝ)
    (hr1 : reduction ≠ "none") (hr2 : reduction ≠ "mean")
    (hr3 : reduction ≠ "sum") :
    (∀ out, sigmoid_focal_loss pred target weight gamma alpha reduction
      avg_factor ≠ .ok out) ∧
    (pred.shape = target.shape → (∀ w, weight = some w → w.dim = 1) →
      sigmoid_focal_loss pred target weight gamma alpha reduction avg_factor =
        .error .invalidArgument) := by
  have herr : ∀ hsh : pred.shape = target.shape,
      (∀ w, weight = some w → w.dim = 1) →
      sigmoid_focal_loss pred target weight gamma alpha reduction avg_factor =
        .error .invalidArgument := by
    intro hsh hw
    cases weight with
    | none =>
      rw [sigmoid_focal_loss_none _ _ _ _ _ _ hsh]
      cases avg_factor <;>
        simp [weight_reduce_loss, reduce_loss, hr1, hr2, hr3]
    | some w =>
      rw [sigmoid_focal_loss_some _ _ _ _ _ _ _ hsh (hw w rfl)]
      cases avg_factor <;>
        simp [weight_reduce_loss, reduce_loss, hr1, hr2, hr3]
  refine ⟨?_, herr⟩
  intro out
  by_cases hsh : pred.shape = target.shape
  · cases weight with
    | none => rw [herr hsh (fun w hw => by cases hw)]; simp
    | some w =>
      by_cases hd : w.dim = 1
      · rw [herr hsh (fun v hv => by cases hv; exact hd)]; simp
      · simp [sigmoid_focal_loss, hsh, hd]
  · simp [sigmoid_focal_loss, hsh]

/-- Witness for C9 at the concrete invalid reduction mode `"bogus"`. -/
theorem C9_invalid_reduction_witness :
    (∀ out, sigmoid_focal_loss ⟨[1], [0]⟩ ⟨[1], [1]⟩ none 2 (1 / 4) "bogus"
      none ≠ .ok out) ∧
    ((⟨[1], [0]⟩ : Tensor).shape = (⟨[1], [1]⟩ : Tensor).shape →
      (∀ w, (none : Option Tensor) = some w → w.dim = 1) →
      sigmoid_focal_loss ⟨[1], [0]⟩ ⟨[1], [1]⟩ none 2 (1 / 4) "bogus" none =
        .error .invalidArgument) :=
  C9_invalid_reduction ⟨[1], [0]⟩ ⟨[1], [1]⟩ none 2 (1 / 4) "bogus" none
    (by decide) (by decide) (by decide)

/-- C10: `FocalLoss.__init__` is total and stores `gamma`, `alpha`,
`reduction` and `loss_weight` exactly as given, with no validation; an
invalid configured reduction mode only surfaces when `forward` runs
(there it yields an `InvalidArgument` error). -/
theorem C10_init_stores_unvalidated (gamma alpha : ℝ) (reduction : String)
    (loss_weight : ℝ) :
    (FocalLoss.init gamma alpha reduction loss_weight).gamma = gamma ∧
    (FocalLoss.init gamma alpha reduction loss_weight).alpha = alpha ∧
    (FocalLoss.init gamma alpha reduction loss_weight).reduction = reduction ∧
    (FocalLoss.init gamma alpha reduction loss_weight).loss_weight =
      loss_weight ∧
    (∀ pred target : Tensor, pred.shape = target.shape →
      reduction ≠ "none" → reduction ≠ "mean" → reduction ≠ "sum" →
      (FocalLoss.init gamma alpha reduction loss_weight).forward pred target
        none none none = .error .invalidArgument) := by
  refine ⟨rfl, rfl, rfl, rfl, ?_⟩
  intro pred target hsh hr1 hr2 hr3
  have hsfl : sigmoid_focal_loss pred target none gamma alpha reduction none =
      .error .invalidArgument := by
    rw [sigmoid_focal_loss_none _ _ _ _ _ _ hsh]
    simp [weight_reduce_loss, reduce_loss, hr1, hr2, hr3]
  simp [FocalLoss.forward, FocalLoss.init, Except.map]
  rw [hsfl]

/-- Witness for C10 at the concrete invalid configured reduction
`"bogus"`. -/
theorem C10_init_stores_unvalidated_witness :
    (FocalLoss.init 2 (1 / 4) "bogus" 1).gamma = 2 ∧
    (FocalLoss.init 2 (1 / 4) "bogus" 1).alpha = 1 / 4 ∧
    (FocalLoss.init 2 (1 / 4) "bogus" 1).reduction = "bogus" ∧
    (FocalLoss.init 2 (1 / 4) "bogus" 1).loss_weight = 1 ∧
    (∀ pred target : Tensor, pred.shape = target.shape →
      "bogus" ≠ "none" → "bogus" ≠ "mean" → "bogus" ≠ "sum" →
      (FocalLoss.init 2 (1 / 4) "bogus" 1).forward pred target none none
        none = .error .invalidArgument) :=
  C10_init_stores_unvalidated 2 (1 / 4) "bogus" 1

/-- C8: `FocalLoss.forward` fails with an `InvalidArgument` error when
`reduction_override` is outside `{None, 'none', 'mean', 'sum'}`; a
non-`None` valid override replaces the configured reduction; and in the
valid cases the result is `loss_weight` times the result of
`sigmoid_focal_loss` with the effective reduction. -/
theorem C8_forward_override (self : FocalLoss) (pred target : Tensor)
    (weight : Option Tensor) (avg_factor : Option ℝ) (ro : Option String) :
    ((ro ≠ none ∧ ro ≠ some "none" ∧ ro ≠ some "mean" ∧ ro ≠ some "sum") →
      self.forward pred target weight avg_factor ro =
        .error .invalidArgument) ∧
    (∀ r, ro = some r → (r = "none" ∨ r = "mean" ∨ r = "sum") →
      self.forward pred target weight avg_factor ro =
        (sigmoid_focal_loss pred target weight self.gamma self.alpha r
          avg_factor).map (scaleTensor self.loss_weight)) ∧
    (ro = none →
      self.forward pred target weight avg_factor ro =
        (sigmoid_focal_loss pred target weight self.gamma self.alpha
          self.reduction avg_factor).map (scaleTensor self.loss_weight)) := by
  refine ⟨?_, ?_, ?_⟩
  · intro ⟨h1, h2, h3, h4⟩
    simp [FocalLoss.forward, h1, h2, h3, h4]
  · rintro r rfl hr
    rcases hr with rfl | rfl | rfl <;> simp [FocalLoss.forward]
  · rintro rfl
    simp [FocalLoss.forward]

/-- Witness for C8: a `'sum'` override on a module configured with
`reduction='mean'`. -/
theorem C8_forward_override_witness :
    (FocalLoss.init 2 (1 / 4) "mean" 3).forward ⟨[1], [0]⟩ ⟨[1], [1]⟩ none
        none (some "sum") =
      (sigmoid_focal_loss ⟨[1], [0]⟩ ⟨[1], [1]⟩ none 2 (1 / 4) "sum"
        none).map (scaleTensor 3) :=
  (C8_forward_override (FocalLoss.init 2 (1 / 4) "mean" 3) ⟨[1], [0]⟩
    ⟨[1], [1]⟩ none none (some "sum")).2.1 "sum" rfl (Or.inr (Or.inr rfl))

/-- C7: a provided sample weight must be 1-D (`InvalidArgument` error
otherwise), and it scales sample `i`'s whole block of per-element losses
by `w[i]` (the `(N,1)` broadcast); hence a sample whose weight is `0`
contributes nothing: the result — under every reduction mode and
`avg_factor` — is unchanged when that sample's prediction and target
entries are replaced arbitrarily. -/
theorem C7_sample_weight (pred1 target1 pred2 target2 w1 w2 : Tensor)
    (gamma alpha : ℝ) (reduction : String) (avg_factor : Option ℝ) (i : ℕ) :
    (pred1.shape = target1.shape → w1.dim ≠ 1 →
      sigmoid_focal_loss pred1 target1 (some w1) gamma alpha reduction
        avg_factor = .error .invalidArgument) ∧
    (pred1.shape = target1.shape → pred2.shape = pred1.shape →
      target2.shape = target1.shape →
      pred1.data.length = pred2.data.length →
      target1.data.length = target2.data.length →
      w2.dim = 1 → w2.data.getD i 0 = 0 →
      (∀ j, j < pred1.data.length → j / pred1.shape.tail.prod ≠ i →
        pred1.data.getD j 0 = pred2.data.getD j 0 ∧
        target1.data.getD j 0 = target2.data.getD j 0) →
      sigmoid_focal_loss pred1 target1 (some w2) gamma alpha reduction
        avg_factor =
      sigmoid_focal_loss pred2 target2 (some w2) gamma alpha reduction
        avg_factor) := by
  constructor
  · intro hsh hd
    simp [sigmoid_focal_loss, hsh, hd]
  · intro hsh hp2 ht2 hlp hlt hd hw0 hagree
    have hsh2 : pred2.shape = target2.shape := by rw [hp2, ht2, hsh]
    have hprod2 : pred2.shape.tail.prod = pred1.shape.tail.prod := by
      rw [hp2]
    have happly :
        applyWeight (perElemLoss gamma alpha pred1 target1) w2.data =
        applyWeight (perElemLoss gamma alpha pred2 target2) w2.data := by
      apply Tensor.ext
      · simpa [applyWeight, perElemLoss] using hp2.symm
      · apply List.ext_getElem
        · simp [applyWeight, perElemLoss, List.length_zipWith, hlp, hlt]
        · intro j hj1 hj2
          simp only [applyWeight, perElemLoss] at hj1 hj2 ⊢
          have hjp1 : j < pred1.data.length := by
            simp [List.length_zipWith] at hj1
            omega
          have hjt1 : j < target1.data.length := by
            simp [List.length_zipWith] at hj1
            omega
          have hjp2 : j < pred2.data.length := by omega
          have hjt2 : j < target2.data.length := by omega
          rw [List.getElem_mapIdx, List.getElem_mapIdx,
            List.getElem_zipWith, List.getElem_zipWith]
          simp only [hprod2]
          by_cases hji : j / pred1.shape.tail.prod = i
          · rw [hji, hw0, mul_zero, mul_zero]
          · obtain ⟨he1, he2⟩ := hagree j hjp1 hji
            rw [List.getD_eq_getElem _ _ hjp1,
              List.getD_eq_getElem _ _ hjp2] at he1
            rw [List.getD_eq_getElem _ _ hjt1,
              List.getD_eq_getElem _ _ hjt2] at he2
            rw [he1, he2]
    rw [sigmoid_focal_loss_some _ _ _ _ _ _ _ hsh hd,
      sigmoid_focal_loss_some _ _ _ _ _ _ _ hsh2 hd,
      weight_reduce_loss_some, weight_reduce_loss_some, happly]

/-- Witness for C7 at the spec's concrete `(4, 3)` scenario with weight
`[1, 1, 0, 1]`: a non-1-D weight is rejected, and the third sample's row
can be replaced arbitrarily without changing the result. -/
theorem C7_sample_weight_witness :
    sigmoid_focal_loss ⟨[4, 3], [1, 2, 3, 4, 5, 6, 7, 8, 9, 10, 11, 12]⟩
        ⟨[4, 3], [1, 0, 0, 0, 1, 0, 0, 0, 1, 1, 0, 0]⟩
        (some ⟨[2, 2], [1, 1, 1, 1]⟩) 2 (1 / 4) "sum" none =
      .error .invalidArgument ∧
    sigmoid_focal_loss ⟨[4, 3], [1, 2, 3, 4, 5, 6, 7, 8, 9, 10, 11, 12]⟩
        ⟨[4, 3], [1, 0, 0, 0, 1, 0, 0, 0, 1, 1, 0, 0]⟩
        (some ⟨[4], [1, 1, 0, 1]⟩) 2 (1 / 4) "sum" none =
      sigmoid_focal_loss ⟨[4, 3], [1, 2, 3, 4, 5, 6, 0, 0, 0, 10, 11, 12]⟩
        ⟨[4, 3], [1, 0, 0, 0, 1, 0, 1, 1, 1, 1, 0, 0]⟩
        (some ⟨[4], [1, 1, 0, 1]⟩) 2 (1 / 4) "sum" none :=
  ⟨(C7_sample_weight ⟨[4, 3], [1, 2, 3, 4, 5, 6, 7, 8, 9, 10, 11, 12]⟩
      ⟨[4, 3], [1, 0, 0, 0, 1, 0, 0, 0, 1, 1, 0, 0]⟩
      ⟨[4, 3], [1, 2, 3, 4, 5, 6, 0, 0, 0, 10, 11, 12]⟩
      ⟨[4, 3], [1, 0, 0, 0, 1, 0, 1, 1, 1, 1, 0, 0]⟩
      ⟨[2, 2], [1, 1, 1, 1]⟩ ⟨[4], [1, 1, 0, 1]⟩ 2 (1 / 4) "sum" none 2).1
      rfl (by decide),
   (C7_sample_weight ⟨[4, 3], [1, 2, 3, 4, 5, 6, 7, 8, 9, 10, 11, 12]⟩
      ⟨[4, 3], [1, 0, 0, 0, 1, 0, 0, 0, 1, 1, 0, 0]⟩
      ⟨[4, 3], [1, 2, 3, 4, 5, 6, 0, 0, 0, 10, 11, 12]⟩
      ⟨[4, 3], [1, 0, 0, 0, 1, 0, 1, 1, 1, 1, 0, 0]⟩
      ⟨[2, 2], [1, 1, 1, 1]⟩ ⟨[4], [1, 1, 0, 1]⟩ 2 (1 / 4) "sum" none 2).2
      rfl rfl rfl (by decide) (by decide) rfl rfl
      (by
        intro j hj hji
        simp only [List.length_cons, List.length_nil] at hj
        interval_cases j <;>
          first
            | exact absurd rfl hji
            | exact ⟨rfl, rfl⟩)⟩

/- Analytic facts about the per-element loss at `target = 1`. -/

theorem sigmoid_pos (x : ℝ) : 0 < sigmoid x := by
  unfold sigmoid
  positivity

theorem sigmoid_lt_one (x : ℝ) : sigmoid x < 1 := by
  unfold sigmoid
  rw [div_lt_one (by positivity)]
  linarith [Real.exp_pos (-x)]

theorem sigmoid_lt_sigmoid {a b : ℝ} (h : a < b) : sigmoid a < sigmoid b := by
  unfold sigmoid
  have ha : (0 : ℝ) < 1 + Real.exp (-a) := by positivity
  have hb : (0 : ℝ) < 1 + Real.exp (-b) := by positivity
  have hexp : Real.exp (-b) < Real.exp (-a) := Real.exp_lt_exp.2 (by linarith)
  rw [div_lt_div_iff₀ ha hb]
  linarith

theorem one_sub_sigmoid (x : ℝ) :
    1 - sigmoid x = Real.exp (-x) / (1 + Real.exp (-x)) := by
  have h : (0 : ℝ) < 1 + Real.exp (-x) := by positivity
  field_simp [sigmoid]

/-- At `target = 1` the stable BCE formula collapses to
`log(1 + exp(-x))`. -/
theorem bce_with_logits_one (x : ℝ) :
    binary_cross_entropy_with_logits x 1 = Real.log (1 + Real.exp (-x)) := by
  unfold binary_cross_entropy_with_logits
  rcases le_or_lt 0 x with hx | hx
  · rw [abs_of_nonneg hx, max_eq_left hx]
    ring
  · rw [abs_of_neg hx, max_eq_right hx.le, neg_neg]
    have h0 : -x + x = 0 := by ring
    have hkey : (1 : ℝ) + Real.exp (-x) = Real.exp (-x) * (1 + Real.exp x) := by
      rw [mul_add, mul_one, ← Real.exp_add, h0, Real.exp_zero]
      ring
    rw [hkey, Real.log_mul (Real.exp_ne_zero (-x)) (by positivity),
      Real.log_exp]
    ring

/-- At `target = 1` the per-element focal loss is
`alpha * (1 - sigmoid x)^gamma * log(1 + exp(-x))`. -/
theorem focalElem_target_one (gamma alpha x : ℝ) :
    focalElem gamma alpha x 1 =
      alpha * ((1 - sigmoid x) ^ gamma * Real.log (1 + Real.exp (-x))) := by
  have hpt : (1 - sigmoid x) * 1 + sigmoid x * (1 - 1) = 1 - sigmoid x := by
    ring
  simp only [focalElem]
  rw [hpt, bce_with_logits_one]
  ring

/-- C6: for `target = 1`, any `gamma > 0` and any positive `alpha`, the
per-element focal loss is a strictly decreasing function of the logit,
and it tends to `0` as the logit (hence the predicted probability of
class 1) grows. -/
theorem C6_loss_strictly_decreasing (gamma alpha : ℝ) (hg : 0 < gamma)
    (ha : 0 < alpha) :
    StrictAnti (fun x => focalElem gamma alpha x 1) ∧
    Tendsto (fun x => focalElem gamma alpha x 1) atTop (nhds 0) := by
  constructor
  · intro a b hab
    simp only [focalElem_target_one]
    have hsa : sigmoid a < sigmoid b := sigmoid_lt_sigmoid hab
    have h1b : 0 < 1 - sigmoid b := by linarith [sigmoid_lt_one b]
    have hgb : (1 - sigmoid b) ^ gamma < (1 - sigmoid a) ^ gamma :=
      Real.rpow_lt_rpow h1b.le (by linarith) hg
    have hLbpos : 0 < Real.log (1 + Real.exp (-b)) :=
      Real.log_pos (by linarith [Real.exp_pos (-b)])
    have hLab : Real.log (1 + Real.exp (-b)) < Real.log (1 + Real.exp (-a)) :=
      Real.log_lt_log (by positivity)
        (by linarith [Real.exp_lt_exp.2 (neg_lt_neg hab)])
    have hmul : (1 - sigmoid b) ^ gamma * Real.log (1 + Real.exp (-b)) <
        (1 - sigmoid a) ^ gamma * Real.log (1 + Real.exp (-a)) :=
      mul_lt_mul hgb hLab.le hLbpos
        (Real.rpow_pos_of_pos (by linarith [sigmoid_lt_one a]) gamma).le
    exact mul_lt_mul_of_pos_left hmul ha
  · have hexp : Tendsto (fun x : ℝ => Real.exp (-x)) atTop (nhds 0) :=
      Real.tendsto_exp_neg_atTop_nhds_zero
    have hden : Tendsto (fun x : ℝ => 1 + Real.exp (-x)) atTop (nhds 1) := by
      simpa using tendsto_const_nhds.add hexp
    have hL : Tendsto (fun x : ℝ => Real.log (1 + Real.exp (-x))) atTop
        (nhds 0) := by
      have hc := (Real.continuousAt_log one_ne_zero).tendsto.comp hden
      simpa using hc
    have hbase : Tendsto (fun x : ℝ => 1 - sigmoid x) atTop (nhds 0) := by
      simp only [one_sub_sigmoid]
      simpa using hexp.div hden one_ne_zero
    have hpow : Tendsto (fun x : ℝ => (1 - sigmoid x) ^ gamma) atTop
        (nhds 0) := by
      have hc : ContinuousAt (fun t : ℝ => t ^ gamma) 0 :=
        Real.continuousAt_rpow_const 0 gamma (Or.inr hg.le)
      have := hc.tendsto.comp hbase
      simpa [Real.zero_rpow hg.ne'] using this
    have hprod : Tendsto
        (fun x : ℝ => (1 - sigmoid x) ^ gamma * Real.log (1 + Real.exp (-x)))
        atTop (nhds 0) := by
      simpa using hpow.mul hL
    simp only [focalElem_target_one]
    simpa using hprod.const_mul alpha

/-- Witness for C6 at `gamma = 1`, `alpha = 1`. -/
theorem C6_loss_strictly_decreasing_witness :
    StrictAnti (fun x => focalElem 1 1 x 1) ∧
    Tendsto (fun x => focalElem 1 1 x 1) atTop (nhds 0) :=
  C6_loss_strictly_decreasing 1 1 one_pos one_pos
